import Mathlib

/-!
Shallow embedding of the cuDNN graph-construction / compilation / execution
core in `runtime/src/openxla/runtime/nvgpu/cudnn_api.cpp`.

Conventions:
* `int64_t` values (dimensions, strides, tensor ids, alignments) become `Int`;
  `cudnnDataType_t` and `cudnnPointwiseMode_t` become numeric codes (`Nat`).
* Fallible functions (`iree::StatusOr`) become `Except IreeStatusCode _`.
* Calls into the external cuDNN frontend library (descriptor `build()`
  statuses, heuristics, execution-plan building, dispatch) are external to
  this repository; their results are modelled as explicit parameters or as
  success, while every piece of control flow written in `cudnn_api.cpp`
  itself is translated directly.
-/

set_option linter.unusedVariables false

/-- IREE status codes used by `cudnn_api.cpp` (`iree_make_status`). -/
inductive IreeStatusCode where
  | invalidArgument
  | internal
deriving DecidableEq

/-- Attributes of a cuDNN backend tensor descriptor as set through
`cudnn_frontend::TensorBuilder` (`setDim`, `setStride`, `setId`,
`setAlignment`, `setDataType`, `setVirtual`). -/
structure TensorDesc where
  dims : List Int
  strides : List Int
  id : Int
  alignment : Int
  dtype : Nat
  isVirtual : Bool
deriving DecidableEq

/-- A tensor node of the cuDNN graph: `CuDNNArgTensor` (a graph-external
argument, `Kind::kArg`) or `CuDNNOpResultTensor` (result of one operation,
`Kind::kOpResult`, holding the input tensor nodes retained in
`CuDNNOpResultTensor::inputs_`).  Each `CuDNNOpResultTensor` owns exactly one
backend operation, so the node itself stands for that operation in operation
lists. -/
inductive CuDNNTensor where
  | arg (desc : TensorDesc)
  | opResult (desc : TensorDesc) (inputs : List CuDNNTensor)

mutual

/-- Structural equality test for tensor nodes (pointer identity in the C++
source distinguishes at most as much as structure does; the id-uniqueness
invariant of the data model makes the two coincide on argument tensors). -/
def teq : CuDNNTensor → CuDNNTensor → Bool
  | .arg d1, .arg d2 => decide (d1 = d2)
  | .opResult d1 l1, .opResult d2 l2 => decide (d1 = d2) && teqList l1 l2
  | .arg _, .opResult _ _ => false
  | .opResult _ _, .arg _ => false

/-- Structural equality test for lists of tensor nodes. -/
def teqList : List CuDNNTensor → List CuDNNTensor → Bool
  | [], [] => true
  | a :: as, b :: bs => teq a b && teqList as bs
  | [], _ :: _ => false
  | _ :: _, [] => false

end

mutual

theorem teq_iff : ∀ a b : CuDNNTensor, teq a b = true ↔ a = b
  | .arg d1, .arg d2 => by simp [teq]
  | .opResult d1 l1, .opResult d2 l2 => by
      simp [teq, teqList_iff l1 l2]
  | .arg _, .opResult _ _ => by simp [teq]
  | .opResult _ _, .arg _ => by simp [teq]

theorem teqList_iff : ∀ as bs : List CuDNNTensor, teqList as bs = true ↔ as = bs
  | [], [] => by simp [teqList]
  | a :: as, b :: bs => by
      simp [teqList, teq_iff a b, teqList_iff as bs]
  | [], _ :: _ => by simp [teqList]
  | _ :: _, [] => by simp [teqList]

end

instance : DecidableEq CuDNNTensor := fun a b => decidable_of_iff _ (teq_iff a b)

/-- The descriptor returned by `CuDNNTensor::tensor()`. -/
def descOf : CuDNNTensor → TensorDesc
  | .arg d => d
  | .opResult d _ => d

/-- `tensor().getId()`. -/
def tid (t : CuDNNTensor) : Int := (descOf t).id

/-- `CuDNNOpResultTensor::inputs()`; an argument tensor has no inputs. -/
def inputsOf : CuDNNTensor → List CuDNNTensor
  | .arg _ => []
  | .opResult _ ins => ins

/-- `DynCast<CuDNNArgTensor>` succeeds exactly on argument tensors. -/
def isArg : CuDNNTensor → Bool
  | .arg _ => true
  | .opResult _ _ => false

/-- `CreateTensor`: builds an argument tensor holding the caller-supplied
descriptor (`setDim/setStride/setId/setAlignment/setDataType`; `CreateTensor`
does not set the virtual flag).  The backend descriptor build status comes
from the external cuDNN frontend library and is modelled as success. -/
def CreateTensor (dims strides : List Int) (uid : Int) (dtype : Nat)
    (alignment : Int) : Except IreeStatusCode CuDNNTensor :=
  .ok (.arg { dims := dims, strides := strides, id := uid,
              alignment := alignment, dtype := dtype, isVirtual := false })

/-- Modelled from the spec: `cudnn_frontend::TensorBuilder().cloneFrom(t, uid)`
belongs to the external cuDNN frontend library (not part of this repository's
sources); per the spec, pointwise construction "clones the input tensor's
shape/stride/type descriptor for the output", with the caller-supplied uid,
alignment and virtual flag applied on top (`setAlignment`, `setVirtual`). -/
def cloneFromWith (t : TensorDesc) (uid alignment : Int) (isVirtual : Bool) :
    TensorDesc :=
  { t with id := uid, alignment := alignment, isVirtual := isVirtual }

/-- `CreatePointwiseRelu`: output descriptor cloned from the input (with new
uid/alignment/virtual flag); result node holds `{&input}` as inputs.  The
clipping bounds (C `double`s) flow only into the backend activation
descriptor, never into the result tensor node, and are omitted here; backend
build statuses are modelled as success. -/
def CreatePointwiseRelu (input : CuDNNTensor) (uid alignment : Int)
    (is_virtual : Bool) : Except IreeStatusCode CuDNNTensor :=
  .ok (.opResult (cloneFromWith (descOf input) uid alignment is_virtual) [input])

/-- `CreatePointwiseUnary`: output descriptor cloned from `x`; result node
holds `{&x}` as inputs.  `mode` is the numeric `cudnnPointwiseMode_t`; the
`alpha` scale (C `float`) flows only into the backend operation descriptor
and is omitted. -/
def CreatePointwiseUnary (mode : Nat) (x : CuDNNTensor) (uid alignment : Int)
    (is_virtual : Bool) : Except IreeStatusCode CuDNNTensor :=
  .ok (.opResult (cloneFromWith (descOf x) uid alignment is_virtual) [x])

/-- `CreatePointwiseBinary`: output descriptor cloned from `x` (the first
operand; see the TODO in the source about implicit broadcasting — no
broadcast shape computation is performed); result node holds `{&x, &b}`.
The `alpha`/`alpha2` scales flow only into the backend operation descriptor
and are omitted. -/
def CreatePointwiseBinary (mode : Nat) (x b : CuDNNTensor)
    (uid alignment : Int) (is_virtual : Bool) :
    Except IreeStatusCode CuDNNTensor :=
  .ok (.opResult (cloneFromWith (descOf x) uid alignment is_virtual) [x, b])

/-- `GetFwdConvDilatedFilterDim`. -/
def GetFwdConvDilatedFilterDim (filter_dim dilation : Int) : Int :=
  ((filter_dim - 1) * dilation) + 1

/-- `GetFwdConvPaddedImageDim`. -/
def GetFwdConvPaddedImageDim (tensor_dim padding : Int) : Int :=
  tensor_dim + (2 * padding)

/-- `GetFwdConvOutputDim`; C++ `int64_t` division truncates toward zero
(`Int.tdiv`). -/
def GetFwdConvOutputDim (tensor_dim padding filter_dim stride dilation : Int) :
    Int :=
  let padded := GetFwdConvPaddedImageDim tensor_dim padding
  let dilated := GetFwdConvDilatedFilterDim filter_dim dilation
  (Int.tdiv (padded - dilated) stride) + 1

/-- `GetRowMajorStrides`: `strides` starts as all ones and the loop runs
`for (d = dims.size() - 2; d >= 0; --d) strides[d] = dims[d] * strides[d+1]`,
so the last stride is `1` and each earlier stride is `dims[d]` times its
successor (note: `dims[d]`, the dimension at the same index, exactly as in
the source). -/
def GetRowMajorStrides : List Int → List Int
  | [] => []
  | [_] => [1]
  | d :: rest => d * (GetRowMajorStrides rest).headD 1 :: GetRowMajorStrides rest

/-- `GetChannelsLastStrides`: asserts rank 4 or 5; `strides[1] = 1`,
`strides[last] = dims[1]`, `strides[d] = strides[d+1] * dims[d+1]` for
`d = size-2 .. 2`, and `strides[0] = strides[2] * dims[2]`.  Written out for
the two ranks the `IREE_ASSERT` admits; other ranks are unreachable from
`CreateConvolution` (whose output rank is always 4) and map to the
assertion default. -/
def GetChannelsLastStrides : List Int → List Int
  | [_a, b, c, d] => [b * d * c, 1, b * d, b]
  | [_a, b, c, d, e] => [b * e * d * c, 1, b * e * d, b * e, b]
  | dims => dims.map fun _ => 1

/-- `CreateConvolution`: validates ranks, computes output dims (batch and
channel copied from `input_dims[0]` and `input_dims[1]`, spatial dims via
`GetFwdConvOutputDim` with the fixed `paddings = {0,0}`, `strides = {1,1}`,
`dilations = {1,1}`), picks output strides by the `is_nhwc` test
(`input->getStride()[1] == 1`), and builds the output descriptor by cloning
the input descriptor and overriding dims/strides/uid/alignment/virtual flag.
The convolution math `mode` flows only into the backend convolution
descriptor and is omitted; backend build statuses are modelled as success. -/
def CreateConvolution (input filter : CuDNNTensor) (uid alignment : Int)
    (is_virtual : Bool) : Except IreeStatusCode CuDNNTensor :=
  let input_dims := (descOf input).dims
  let filter_dims := (descOf filter).dims
  if input_dims.length ≠ 4 then
    .error .invalidArgument  -- "3d convolution is not supported"
  else if input_dims.length ≠ filter_dims.length then
    .error .invalidArgument  -- "convolution input and filter must have the same rank"
  else
    let output_dims : List Int :=
      [input_dims.getD 0 0, input_dims.getD 1 0,  -- [N, C]
       GetFwdConvOutputDim (input_dims.getD 2 0) 0 (filter_dims.getD 2 0) 1 1,
       GetFwdConvOutputDim (input_dims.getD 3 0) 0 (filter_dims.getD 3 0) 1 1]
    let is_nhwc := (descOf input).strides.getD 1 0 = 1
    let output_strides :=
      if is_nhwc then GetChannelsLastStrides output_dims
      else GetRowMajorStrides output_dims
    .ok (.opResult
      { (descOf input) with
          dims := output_dims, strides := output_strides, id := uid,
          alignment := alignment, isVirtual := is_virtual }
      [input, filter])

/-- Auxiliary `sizeOf` fact for the work-list termination measure. -/
theorem sizeOf_list_append (l1 l2 : List CuDNNTensor) :
    sizeOf (l1 ++ l2) + 1 = sizeOf l1 + sizeOf l2 := by
  induction l1 with
  | nil => simp; omega
  | cons a as ih => simp_all; omega

/-- Auxiliary `sizeOf` fact for the work-list termination measure. -/
theorem sizeOf_list_reverse (l : List CuDNNTensor) :
    sizeOf l.reverse = sizeOf l := by
  induction l with
  | nil => rfl
  | cons a as ih =>
      have h := sizeOf_list_append as.reverse [a]
      simp_all
      omega

/-- The work-list loop of `CreateOperationGraph` (lines 466–491): pops one
tensor at a time (the C++ `worklist.back()`/`pop_back()` stack is modelled
head-first, so the initial work list is `rets` reversed and inputs are pushed
reversed), inserts argument tensors into the discovered-argument set `args`
(`std::unordered_set`, modelled as a duplicate-free insertion-order list),
and for operation results appends the owning operation to `ops`
(`ops.push_back`) and pushes all inputs. -/
def collectArgsAndOps : List CuDNNTensor → List CuDNNTensor →
    List CuDNNTensor → List CuDNNTensor × List CuDNNTensor
  | [], args, ops => (args, ops)
  | .arg d :: worklist, args, ops =>
      collectArgsAndOps worklist
        (if .arg d ∈ args then args else args ++ [.arg d]) ops
  | .opResult d ins :: worklist, args, ops =>
      collectArgsAndOps (ins.reverse ++ worklist) args
        (ops ++ [.opResult d ins])
termination_by wl args ops => sizeOf wl
decreasing_by
  · simp
    try omega
  · have h1 := sizeOf_list_append ins.reverse worklist
    have h2 := sizeOf_list_reverse ins
    simp
    try omega

/-- The operation list alone, in collection (pre-reversal) order; used to
reason about the `ops` component of `collectArgsAndOps`. -/
def opsList : List CuDNNTensor → List CuDNNTensor
  | [] => []
  | .arg _ :: worklist => opsList worklist
  | .opResult d ins :: worklist =>
      .opResult d ins :: opsList (ins.reverse ++ worklist)
termination_by wl => sizeOf wl
decreasing_by
  · simp
    try omega
  · have h1 := sizeOf_list_append ins.reverse worklist
    have h2 := sizeOf_list_reverse ins
    simp
    try omega

/-- The discovered-argument set of `CreateOperationGraph rets` (the contents
of the C++ `args` set, in first-discovery order). -/
def discoveredArgs (rets : List CuDNNTensor) : List CuDNNTensor :=
  (collectArgsAndOps rets.reverse [] []).1

/-- The comparator of the `std::sort` call: order argument tensors by
`tensor().getId()`.  (`std::sort` takes the strict form `a.id < b.id`; the
insertion sort used here takes the reflexive form and produces an id-sorted
permutation, which is exactly determined whenever the ids are unique.) -/
def leById (a b : CuDNNTensor) : Prop := tid a ≤ tid b

instance : DecidableRel leById := fun a b =>
  inferInstanceAs (Decidable (tid a ≤ tid b))

instance : IsTotal CuDNNTensor leById :=
  ⟨fun a b => le_total (tid a) (tid b)⟩

instance : IsTrans CuDNNTensor leById :=
  ⟨fun a b c hab hbc => le_trans hab hbc⟩

/-- The strict id order; two id-strictly-sorted permutations of one another
are equal, which is what makes the argument order canonical. -/
def ltById (a b : CuDNNTensor) : Prop := tid a < tid b

instance : IsAntisymm CuDNNTensor ltById :=
  ⟨fun a b h1 h2 => absurd (lt_trans h1 h2) (lt_irrefl _)⟩

/-- `std::sort(unique_args, by id)` (lines 506–510). -/
def sortArgsById (args : List CuDNNTensor) : List CuDNNTensor :=
  List.insertionSort leById args

/-- `CuDNNOperationGraph`: the sorted argument tensors, the returned tensors
in caller order, the uid list built by the constructor (argument ids then
return ids, lines 99–106), and the operation list handed to
`cudnn_frontend::OperationGraphBuilder::setOperationGraph` (after
`std::reverse`). -/
structure CuDNNOperationGraph where
  args : List CuDNNTensor
  rets : List CuDNNTensor
  uids : List Int
  ops : List CuDNNTensor
deriving DecidableEq

/-- `CreateOperationGraph` (lines 460–514): traverse use-def chains from
`rets`, reverse the collected operations, sort the discovered arguments by
id, and build the graph object.  The backend
`OperationGraphBuilder::build()` status is external and modelled as
success. -/
def CreateOperationGraph (rets : List CuDNNTensor) : CuDNNOperationGraph :=
  let collected := collectArgsAndOps rets.reverse [] []
  let unique_args := sortArgsById collected.1
  { args := unique_args
    rets := rets
    uids := unique_args.map tid ++ rets.map tid
    ops := collected.2.reverse }

/-- Reachability along input edges: `Reaches t y` holds when `y` is `t`
itself or is reachable from one of the inputs of an operation-result
tensor `t` (the use-def relation the traversal follows). -/
inductive Reaches : CuDNNTensor → CuDNNTensor → Prop where
  | refl (t : CuDNNTensor) : Reaches t t
  | input (d : TensorDesc) (ins : List CuDNNTensor) (y z : CuDNNTensor) :
      y ∈ ins → Reaches y z → Reaches (.opResult d ins) z

/-- An engine config candidate returned by the backend heuristics
(`cudnn_frontend::EngineConfigList` entry), identified by its raw backend
descriptor handle. -/
structure EngineConfig where
  raw : Nat
deriving DecidableEq

/-- A `cudnn_frontend::ExecutionPlan` as observed by this core: its build
status (`get_status()`, `0 = CUDNN_STATUS_SUCCESS`) and its
`getWorkspaceSize()`. -/
structure ExecutionPlan where
  status : Nat
  workspaceSize : Int
deriving DecidableEq

/-- `CuDNNExecutable`: retains its operation graph and the selected
execution plans. -/
structure CuDNNExecutable where
  graph : CuDNNOperationGraph
  plans : List ExecutionPlan
deriving DecidableEq

/-- The plan-materialization loop of `CreateExecutable` (lines 546–564):
walk the candidate configs in ranked order, build a plan for each
(`ExecutionPlanBuilder`, the external `buildPlan` oracle), skip candidates
whose plan build status is not success (`continue`), and stop at the first
success (`break`).  Returns the configs actually attempted and the plans
collected (at most one). -/
def planSearch : List EngineConfig → (EngineConfig → ExecutionPlan) →
    List EngineConfig × List ExecutionPlan
  | [], _ => ([], [])
  | c :: configs, buildPlan =>
      let plan := buildPlan c
      if plan.status ≠ 0 then
        let rest := planSearch configs buildPlan
        (c :: rest.1, rest.2)
      else
        ([c], [plan])

/-- `CreateExecutable` (lines 525–575): the heuristics call
(`get_heuristics_list`, with the `AcceptAllGraphs` filter) is external and
its resulting `configs` list is a parameter, as is the external plan
builder.  Fails with an internal error when `configs` is empty
("cuDNN operation graph is not supported"), otherwise runs the
plan-materialization loop and fails with an internal error when no plan
validated ("didn't find any engine config supporting cuDNN operation
graph"). -/
def CreateExecutable (graph : CuDNNOperationGraph)
    (configs : List EngineConfig) (buildPlan : EngineConfig → ExecutionPlan) :
    Except IreeStatusCode CuDNNExecutable :=
  if configs.isEmpty then .error .internal
  else
    let plans := (planSearch configs buildPlan).2
    if plans.isEmpty then .error .internal
    else .ok { graph := graph, plans := plans }

/-- An IREE HAL buffer as consumed by `Execute`: underlying device pointer,
byte offset, and whether the allocated buffer is device-resident
(`iree_hal_cuda_buffer_type == IREE_HAL_CUDA_BUFFER_TYPE_DEVICE`). -/
structure HalBuffer where
  devicePointer : Int
  byteOffset : Int
  isDevice : Bool
deriving DecidableEq

/-- The pointer arithmetic of `GetDevicePointers`:
`device_pointer + byte_offset` for each buffer (the device-residency
`IREE_ASSERT` is handled at the call site in `CuDNNExecutable.Execute`). -/
def GetDevicePointers (buffers : List HalBuffer) : List Int :=
  buffers.map fun b => b.devicePointer + b.byteOffset

/-- Outcome of `CuDNNExecutable::Execute`: the invalid-argument error
return, an `IREE_ASSERT` firing (a fatal assertion, not a recoverable
status), or the `cudnnBackendExecute` dispatch with its variant-pack
contents (data pointers, tensor uids, workspace pointer — `none` is the
null workspace pointer). -/
inductive ExecuteResult where
  | invalidArgument
  | assertFailed
  | dispatched (ptrs : List Int) (uids : List Int) (workspace : Option Int)
deriving DecidableEq

/-- `CuDNNExecutable::Execute` (lines 159–195): buffer-count check first
(invalid-argument on mismatch), then pointer conversion (device-residency
`IREE_ASSERT`), the `ptrs/uids` length `IREE_ASSERT_EQ`, the zero-workspace
`IREE_ASSERT_EQ` on `plans_[0]`, and finally the dispatch with a null
workspace pointer.  The variant-pack build status and the backend dispatch
status are external and not part of the result decided here. -/
def CuDNNExecutable.Execute (exe : CuDNNExecutable)
    (buffers : List HalBuffer) : ExecuteResult :=
  if buffers.length ≠ exe.graph.args.length + exe.graph.rets.length then
    .invalidArgument
  else if ¬ (buffers.all fun b => b.isDevice) then .assertFailed
  else
    let ptrs := GetDevicePointers buffers
    let uids := exe.graph.uids
    if ptrs.length ≠ uids.length then .assertFailed
    else
      match exe.plans with
      | [] => .assertFailed
      | plan0 :: _ =>
          if plan0.workspaceSize ≠ 0 then .assertFailed
          else .dispatched ptrs uids none

/-! Concrete fixtures used by witnesses and evaluations. -/

/-- Sample argument tensor, id 1. -/
def sampleA1 : CuDNNTensor := .arg ⟨[2, 2], [2, 1], 1, 16, 0, false⟩

/-- Sample argument tensor, id 3. -/
def sampleA2 : CuDNNTensor := .arg ⟨[2, 2], [2, 1], 3, 16, 0, false⟩

/-- Sample operation result consuming `sampleA1`, id 5. -/
def sampleP : CuDNNTensor := .opResult ⟨[2, 2], [2, 1], 5, 16, 0, true⟩ [sampleA1]

/-- Sample operation result consuming `sampleP` and `sampleA2`, id 7. -/
def sampleQ : CuDNNTensor :=
  .opResult ⟨[2, 2], [2, 1], 7, 16, 0, false⟩ [sampleP, sampleA2]

/-- Sample returned-tensor list. -/
def sampleRets : List CuDNNTensor := [sampleQ]

/-- Sample operation graph over `sampleRets`. -/
def sampleGraph : CuDNNOperationGraph := CreateOperationGraph sampleRets

/-- Sample executable with a zero-workspace plan. -/
def sampleExe : CuDNNExecutable := { graph := sampleGraph, plans := [⟨0, 0⟩] }

/-- The plan builder used by the C3/C9 witnesses: a config's plan status is
its raw handle, its workspace size zero. -/
def sampleBuildPlan : EngineConfig → ExecutionPlan := fun c => ⟨c.raw, 0⟩

/-- NHWC-layout convolution input, dims `[1,3,8,8]`. -/
def convIn1 : CuDNNTensor := .arg ⟨[1, 3, 8, 8], [192, 1, 24, 3], 11, 16, 0, false⟩

/-- Convolution filter with 4 output features, dims `[4,3,3,3]`. -/
def convFilter1 : CuDNNTensor := .arg ⟨[4, 3, 3, 3], [27, 1, 9, 3], 12, 16, 0, false⟩

/-- NCHW-layout (row-major-strided) convolution input, dims `[1,3,8,8]`. -/
def convIn4 : CuDNNTensor := .arg ⟨[1, 3, 8, 8], [192, 64, 8, 1], 13, 16, 0, false⟩

/-- Convolution filter with 3 output features, dims `[3,3,3,3]`. -/
def convFilter4 : CuDNNTensor := .arg ⟨[3, 3, 3, 3], [27, 9, 3, 1], 14, 16, 0, false⟩

/-- Rank-5 (3-D convolution) input. -/
def rank5In : CuDNNTensor :=
  .arg ⟨[1, 3, 8, 8, 8], [1536, 1, 192, 24, 3], 15, 16, 0, false⟩

/-- Rank-5 filter. -/
def rank5Filter : CuDNNTensor :=
  .arg ⟨[4, 3, 3, 3, 3], [81, 1, 27, 9, 3], 16, 16, 0, false⟩

/-- C1: evaluation of `CreateConvolution` at input dims `[1,3,8,8]` and
filter dims `[4,3,3,3]` (stride 1, padding 0, dilation 1).  The construction
succeeds and the computed output dims are `[1,3,6,6]` — the channel count is
copied from `input_dims[1]` — not the `[1,4,6,6]` that the claim (and the
output-dimension law of a forward convolution with 4 output features)
states.  The per-spatial-dim formula itself does match the claim:
`GetFwdConvOutputDim 8 0 3 1 1 = (8 + 0 - 3) / 1 + 1 = 6`. -/
theorem createConvolution_output_dims_evaluation :
    (CreateConvolution convIn1 convFilter1 100 16 false).map
        (fun t => (descOf t).dims) = .ok [1, 3, 6, 6]
    ∧ ([1, 3, 6, 6] : List Int) ≠ [1, 4, 6, 6]
    ∧ GetFwdConvOutputDim 8 0 3 1 1 = 6 := by
  refine ⟨rfl, by decide, rfl⟩

/-- C4: evaluation of `CreateConvolution` at an NCHW input (second-dimension
stride `64 ≠ 1`, so the `GetRowMajorStrides` branch is taken) whose output
dims are `[1,3,6,6]`.  The code produces output strides `[18,18,6,1]`
(because `GetRowMajorStrides` computes `strides[d] = dims[d] * strides[d+1]`),
whereas the row-major strides of `[1,3,6,6]` — each dim's stride the product
of all later dims' extents, as the claim states — are `[108,36,6,1]`. -/
theorem createConvolution_row_major_strides_evaluation :
    (CreateConvolution convIn4 convFilter4 101 16 false).map
        (fun t => (descOf t).strides) = .ok [18, 18, 6, 1]
    ∧ GetRowMajorStrides [1, 3, 6, 6] = [18, 18, 6, 1]
    ∧ ([18, 18, 6, 1] : List Int) ≠ [108, 36, 6, 1]
    ∧ (descOf convIn4).strides.getD 1 0 ≠ 1 := by
  refine ⟨rfl, rfl, by decide, by decide⟩

/-- C7: `CreateConvolution` fails with an invalid-argument error — returning
no node — exactly when the input rank is not 4 or the input and filter ranks
differ; in the rank-4, equal-rank case construction proceeds and returns a
node. -/
theorem createConvolution_rank_validation (input filter : CuDNNTensor)
    (uid al : Int) (v : Bool) :
    (CreateConvolution input filter uid al v = .error .invalidArgument ↔
      ((descOf input).dims.length ≠ 4 ∨
        (descOf input).dims.length ≠ (descOf filter).dims.length))
    ∧ ((∃ t, CreateConvolution input filter uid al v = .ok t) ↔
      ((descOf input).dims.length = 4 ∧ (descOf filter).dims.length = 4)) := by
  unfold CreateConvolution
  by_cases h1 : (descOf input).dims.length = 4 <;>
    by_cases h2 : (descOf input).dims.length = (descOf filter).dims.length <;>
    simp_all <;> omega

/-- C7 witness: a rank-5 input is rejected with invalid-argument, and a
rank-4 input with a rank-4 filter builds a node. -/
theorem createConvolution_rank_validation_witness :
    CreateConvolution rank5In rank5Filter 7 16 false = .error .invalidArgument
    ∧ (∃ t, CreateConvolution convIn1 convFilter1 100 16 false = .ok t) :=
  ⟨(createConvolution_rank_validation rank5In rank5Filter 7 16 false).1.mpr
      (by decide),
   (createConvolution_rank_validation convIn1 convFilter1 100 16 false).2.mpr
      (by decide)⟩

/-- C10: every pointwise construction (ReLU, unary, binary) succeeds with an
output tensor whose descriptor equals the first input's descriptor with only
the uid, alignment and virtual flag replaced; binary's second operand `b`
never influences the output descriptor (the same descriptor results for any
`b`), and the result node records the operand tensors as its inputs. -/
theorem pointwise_output_clones_first_input (mode : Nat) (x b b2 : CuDNNTensor)
    (uid al : Int) (v : Bool) :
    ∃ tr tu tb tb2 : CuDNNTensor,
      CreatePointwiseRelu x uid al v = .ok tr
      ∧ CreatePointwiseUnary mode x uid al v = .ok tu
      ∧ CreatePointwiseBinary mode x b uid al v = .ok tb
      ∧ CreatePointwiseBinary mode x b2 uid al v = .ok tb2
      ∧ descOf tr = descOf tu ∧ descOf tu = descOf tb ∧ descOf tb = descOf tb2
      ∧ (descOf tb).dims = (descOf x).dims
      ∧ (descOf tb).strides = (descOf x).strides
      ∧ (descOf tb).dtype = (descOf x).dtype
      ∧ (descOf tb).id = uid
      ∧ (descOf tb).alignment = al
      ∧ (descOf tb).isVirtual = v
      ∧ inputsOf tr = [x] ∧ inputsOf tu = [x] ∧ inputsOf tb = [x, b] := by
  refine ⟨_, _, _, _, rfl, rfl, rfl, rfl, rfl, rfl, rfl, ?_, ?_, ?_, ?_, ?_, ?_,
    rfl, rfl, rfl⟩ <;> simp [cloneFromWith, descOf]

/-- C6: whenever the buffer-list length differs from the graph's argument
count plus return count, `CuDNNExecutable::Execute` returns the
invalid-argument error and no backend dispatch takes place — the result is
`invalidArgument`, never a `dispatched` outcome (and, the check coming
first, never an assertion from the pointer-conversion path either). -/
theorem execute_buffer_count_mismatch (exe : CuDNNExecutable)
    (buffers : List HalBuffer)
    (h : buffers.length ≠ exe.graph.args.length + exe.graph.rets.length) :
    exe.Execute buffers = .invalidArgument
    ∧ (∀ ptrs uids w, exe.Execute buffers ≠ .dispatched ptrs uids w)
    ∧ exe.Execute buffers ≠ .assertFailed := by
  unfold CuDNNExecutable.Execute
  simp [h]

/-- Concrete evaluation of the sample operation graph: arguments discovered
as `{sampleA2, sampleA1}` and sorted by id to `[sampleA1, sampleA2]`, uids
`[1, 3, 7]`, operations `[sampleP, sampleQ]` after the reversal. -/
theorem sampleGraph_eval :
    sampleGraph.args = [sampleA1, sampleA2] ∧ sampleGraph.rets = [sampleQ] ∧
    sampleGraph.uids = [1, 3, 7] ∧ sampleGraph.ops = [sampleP, sampleQ] := by
  simp [sampleGraph, CreateOperationGraph, collectArgsAndOps, sampleRets,
    sampleQ, sampleP, sampleA1, sampleA2, sortArgsById, List.insertionSort,
    List.orderedInsert, leById, tid, descOf]

/-- C6 witness: one buffer against a 2-argument/1-return graph — and a
non-device buffer at that, showing the count check precedes the
device-residency assertion of the pointer conversion. -/
theorem execute_buffer_count_mismatch_witness :
    ([⟨0, 0, false⟩] : List HalBuffer).length ≠
        sampleExe.graph.args.length + sampleExe.graph.rets.length
    ∧ sampleExe.Execute [⟨0, 0, false⟩] = .invalidArgument
    ∧ sampleExe.Execute [⟨0, 0, false⟩] ≠ .assertFailed := by
  have h : ([⟨0, 0, false⟩] : List HalBuffer).length ≠
      sampleExe.graph.args.length + sampleExe.graph.rets.length := by
    simp [sampleExe, sampleGraph_eval.1, sampleGraph_eval.2.1]
  exact ⟨h, (execute_buffer_count_mismatch sampleExe [⟨0, 0, false⟩] h).1,
    (execute_buffer_count_mismatch sampleExe [⟨0, 0, false⟩] h).2.2⟩

/-- When every candidate's plan build fails, the loop attempts all of them
and collects nothing. -/
theorem planSearch_all_fail :
    ∀ (configs : List EngineConfig) (b : EngineConfig → ExecutionPlan),
      (∀ c ∈ configs, (b c).status ≠ 0) → planSearch configs b = (configs, [])
  | [], b, h => rfl
  | c :: cs, b, h => by
      have hc : (b c).status ≠ 0 := h c (List.mem_cons_self c cs)
      have ih :=
        planSearch_all_fail cs b fun c' hc' => h c' (List.mem_cons_of_mem _ hc')
      simp [planSearch, hc, ih]

/-- The loop stops at the first candidate whose plan validates: it attempts
exactly the failing prefix plus that candidate and collects exactly its
plan. -/
theorem planSearch_first_success :
    ∀ (pre : List EngineConfig) (c : EngineConfig) (post : List EngineConfig)
      (b : EngineConfig → ExecutionPlan),
      (∀ c' ∈ pre, (b c').status ≠ 0) → (b c).status = 0 →
      planSearch (pre ++ c :: post) b = (pre ++ [c], [b c])
  | [], c, post, b, hpre, hc => by simp [planSearch, hc]
  | p :: pre, c, post, b, hpre, hc => by
      have hp : (b p).status ≠ 0 := hpre p (List.mem_cons_self p pre)
      have ih := planSearch_first_success pre c post b
        (fun c' h => hpre c' (List.mem_cons_of_mem _ h)) hc
      simp [planSearch, hp, ih]

/-- C3: `CreateExecutable` fails with an internal error when the heuristics
return no candidate configs; fails with an internal error when no candidate's
plan build validates; and otherwise returns an executable holding exactly one
plan — that of the first candidate in ranked order to validate — having
attempted only the candidates up to and including that first success. -/
theorem createExecutable_first_valid_plan :
    (∀ (g : CuDNNOperationGraph) (b : EngineConfig → ExecutionPlan),
        CreateExecutable g [] b = .error .internal)
    ∧ (∀ (g : CuDNNOperationGraph) (configs : List EngineConfig)
          (b : EngineConfig → ExecutionPlan),
        (∀ c ∈ configs, (b c).status ≠ 0) →
        CreateExecutable g configs b = .error .internal)
    ∧ (∀ (g : CuDNNOperationGraph) (pre : List EngineConfig) (c : EngineConfig)
          (post : List EngineConfig) (b : EngineConfig → ExecutionPlan),
        (∀ c' ∈ pre, (b c').status ≠ 0) → (b c).status = 0 →
        CreateExecutable g (pre ++ c :: post) b =
            .ok { graph := g, plans := [b c] }
          ∧ (planSearch (pre ++ c :: post) b).1 = pre ++ [c]) := by
  refine ⟨fun g b => rfl, fun g configs b h => ?_, fun g pre c post b hpre hc => ?_⟩
  · rcases configs with _ | ⟨c, cs⟩
    · rfl
    · unfold CreateExecutable
      simp [planSearch_all_fail _ b h]
  · have hs := planSearch_first_success pre c post b hpre hc
    unfold CreateExecutable
    simp [hs]

/-- C3 witness: zero candidates fail; two non-validating candidates fail;
with candidates `1, 0, 2` (statuses `1, 0, 2`) the executable holds exactly
the plan of candidate `0` and only candidates `1, 0` were attempted. -/
theorem createExecutable_first_valid_plan_witness :
    CreateExecutable sampleGraph [] sampleBuildPlan = .error .internal
    ∧ CreateExecutable sampleGraph [⟨1⟩, ⟨2⟩] sampleBuildPlan = .error .internal
    ∧ CreateExecutable sampleGraph [⟨1⟩, ⟨0⟩, ⟨2⟩] sampleBuildPlan =
        .ok { graph := sampleGraph, plans := [⟨0, 0⟩] }
    ∧ (planSearch [⟨1⟩, ⟨0⟩, ⟨2⟩] sampleBuildPlan).1 = [⟨1⟩, ⟨0⟩] :=
  ⟨createExecutable_first_valid_plan.1 sampleGraph sampleBuildPlan,
   createExecutable_first_valid_plan.2.1 sampleGraph [⟨1⟩, ⟨2⟩] sampleBuildPlan
     (by decide),
   (createExecutable_first_valid_plan.2.2 sampleGraph [⟨1⟩] ⟨0⟩ [⟨2⟩]
     sampleBuildPlan (by decide) (by decide)).1,
   (createExecutable_first_valid_plan.2.2 sampleGraph [⟨1⟩] ⟨0⟩ [⟨2⟩]
     sampleBuildPlan (by decide) (by decide)).2⟩

/-- C9: workspace is never checked at compile time — `CreateExecutable`
accepts a validating plan of arbitrary (even nonzero) workspace size — and is
asserted at execute time: with all earlier checks passing, `Execute` on a
zero-workspace plan never takes the assertion branch and dispatches with a
null workspace pointer, while a nonzero-workspace plan is an assertion-level
failure (`assertFailed`), not a recoverable error return. -/
theorem workspace_checked_only_at_execute :
    (∀ (g : CuDNNOperationGraph) (cfg : EngineConfig) (w : Int)
        (b : EngineConfig → ExecutionPlan),
      b cfg = ⟨0, w⟩ →
      CreateExecutable g [cfg] b = .ok { graph := g, plans := [⟨0, w⟩] })
    ∧ (∀ (exe : CuDNNExecutable) (buffers : List HalBuffer)
          (p : ExecutionPlan) (rest : List ExecutionPlan),
        exe.plans = p :: rest → p.workspaceSize = 0 →
        buffers.length = exe.graph.args.length + exe.graph.rets.length →
        (buffers.all fun b => b.isDevice) = true →
        exe.graph.uids.length = buffers.length →
        exe.Execute buffers =
            .dispatched (GetDevicePointers buffers) exe.graph.uids none
          ∧ exe.Execute buffers ≠ .assertFailed)
    ∧ (∀ (exe : CuDNNExecutable) (buffers : List HalBuffer)
          (p : ExecutionPlan) (rest : List ExecutionPlan),
        exe.plans = p :: rest → p.workspaceSize ≠ 0 →
        buffers.length = exe.graph.args.length + exe.graph.rets.length →
        (buffers.all fun b => b.isDevice) = true →
        exe.graph.uids.length = buffers.length →
        exe.Execute buffers = .assertFailed) := by
  refine ⟨fun g cfg w b hb => ?_, fun exe buffers p rest hp hw hlen hdev huid => ?_,
    fun exe buffers p rest hp hw hlen hdev huid => ?_⟩
  · unfold CreateExecutable planSearch
    simp [hb]
  · unfold CuDNNExecutable.Execute
    simp [hlen, hdev, GetDevicePointers, huid, hp, hw]
  · unfold CuDNNExecutable.Execute
    simp [hlen, hdev, GetDevicePointers, huid, hp, hw]

/-- C9 witness: a nonzero-workspace plan compiles fine; executing the
zero-workspace `sampleExe` with three device buffers dispatches with a null
workspace; swapping in a workspace-5 plan trips the assertion. -/
theorem workspace_checked_only_at_execute_witness :
    CreateExecutable sampleGraph [⟨9⟩] (fun _ => ⟨0, 5⟩) =
        .ok { graph := sampleGraph, plans := [⟨0, 5⟩] }
    ∧ sampleExe.Execute [⟨10, 0, true⟩, ⟨20, 0, true⟩, ⟨30, 2, true⟩] =
        .dispatched
          (GetDevicePointers [⟨10, 0, true⟩, ⟨20, 0, true⟩, ⟨30, 2, true⟩])
          sampleExe.graph.uids none
    ∧ CuDNNExecutable.Execute { graph := sampleGraph, plans := [⟨0, 5⟩] }
        [⟨10, 0, true⟩, ⟨20, 0, true⟩, ⟨30, 2, true⟩] = .assertFailed := by
  have hlen : ([⟨10, 0, true⟩, ⟨20, 0, true⟩, ⟨30, 2, true⟩] :
      List HalBuffer).length =
      sampleExe.graph.args.length + sampleExe.graph.rets.length := by
    simp [sampleExe, sampleGraph_eval.1, sampleGraph_eval.2.1]
  have huid : sampleExe.graph.uids.length =
      ([⟨10, 0, true⟩, ⟨20, 0, true⟩, ⟨30, 2, true⟩] :
        List HalBuffer).length := by
    simp [sampleExe, sampleGraph_eval.2.2.1]
  exact ⟨workspace_checked_only_at_execute.1 sampleGraph ⟨9⟩ 5 (fun _ => ⟨0, 5⟩) rfl,
    (workspace_checked_only_at_execute.2.1 sampleExe
      [⟨10, 0, true⟩, ⟨20, 0, true⟩, ⟨30, 2, true⟩] ⟨0, 0⟩ [] rfl rfl
      hlen (by decide) huid).1,
    workspace_checked_only_at_execute.2.2 { graph := sampleGraph, plans := [⟨0, 5⟩] }
      [⟨10, 0, true⟩, ⟨20, 0, true⟩, ⟨30, 2, true⟩] ⟨0, 5⟩ [] rfl (by decide)
      hlen (by decide) huid⟩

/-- Membership in the `std::unordered_set::insert` step of the traversal. -/
theorem mem_insertArg (y t : CuDNNTensor) (acc : List CuDNNTensor) :
    y ∈ (if t ∈ acc then acc else acc ++ [t]) ↔ y ∈ acc ∨ y = t := by
  by_cases h : t ∈ acc <;> simp [h]
  rintro rfl
  exact h

/-- An argument tensor reaches only itself. -/
theorem reaches_arg_iff (d : TensorDesc) (y : CuDNNTensor) :
    Reaches (.arg d) y ↔ y = .arg d := by
  constructor
  · intro h
    cases h
    rfl
  · rintro rfl
    exact .refl _

/-- An operation result reaches itself and whatever its inputs reach. -/
theorem reaches_opResult_iff (d : TensorDesc) (ins : List CuDNNTensor)
    (y : CuDNNTensor) :
    Reaches (.opResult d ins) y ↔
      y = .opResult d ins ∨ ∃ i ∈ ins, Reaches i y := by
  constructor
  · intro h
    cases h with
    | refl => exact Or.inl rfl
    | input _ _ i _ hi hr => exact Or.inr ⟨i, hi, hr⟩
  · rintro (rfl | ⟨i, hi, hr⟩)
    · exact .refl _
    · exact .input _ _ _ _ hi hr

/-- Soundness and completeness of the work-list traversal's argument
discovery: the final argument set holds exactly the already-present
accumulator entries plus every argument tensor reachable from a work-list
entry along input edges. -/
theorem mem_collectArgs (y : CuDNNTensor) (wl acc ops : List CuDNNTensor) :
    y ∈ (collectArgsAndOps wl acc ops).1 ↔
      y ∈ acc ∨ (isArg y = true ∧ ∃ t ∈ wl, Reaches t y) := by
  induction wl, acc, ops using collectArgsAndOps.induct with
  | case1 acc ops => simp [collectArgsAndOps]
  | case2 d wl acc ops ih =>
      simp only [dite_eq_ite] at ih
      rw [collectArgsAndOps, ih, mem_insertArg]
      simp only [List.mem_cons]
      constructor
      · rintro ((hy | rfl) | ⟨ha, t, ht, hr⟩)
        · exact Or.inl hy
        · exact Or.inr ⟨rfl, .arg d, Or.inl rfl, .refl _⟩
        · exact Or.inr ⟨ha, t, Or.inr ht, hr⟩
      · rintro (hy | ⟨ha, t, (rfl | ht), hr⟩)
        · exact Or.inl (Or.inl hy)
        · exact Or.inl (Or.inr ((reaches_arg_iff d y).mp hr))
        · exact Or.inr ⟨ha, t, ht, hr⟩
  | case3 d ins wl acc ops ih =>
      rw [collectArgsAndOps, ih]
      simp only [List.mem_append, List.mem_reverse, List.mem_cons]
      constructor
      · rintro (hy | ⟨ha, t, (ht | ht), hr⟩)
        · exact Or.inl hy
        · exact Or.inr ⟨ha, .opResult d ins, Or.inl rfl, .input _ _ _ _ ht hr⟩
        · exact Or.inr ⟨ha, t, Or.inr ht, hr⟩
      · rintro (hy | ⟨ha, t, (rfl | ht), hr⟩)
        · exact Or.inl hy
        · rcases (reaches_opResult_iff d ins y).mp hr with rfl | ⟨i, hi, hr'⟩
          · simp [isArg] at ha
          · exact Or.inr ⟨ha, i, Or.inl hi, hr'⟩
        · exact Or.inr ⟨ha, t, Or.inr ht, hr⟩

/-- The operation component of the traversal appends `opsList` of the work
list to the accumulator (in particular it is independent of the argument
set). -/
theorem collectOps_eq (wl acc ops : List CuDNNTensor) :
    (collectArgsAndOps wl acc ops).2 = ops ++ opsList wl := by
  induction wl, acc, ops using collectArgsAndOps.induct with
  | case1 acc ops => simp [collectArgsAndOps, opsList]
  | case2 d wl acc ops ih =>
      simp only [dite_eq_ite] at ih
      rw [collectArgsAndOps, ih, opsList]
  | case3 d ins wl acc ops ih =>
      rw [collectArgsAndOps, ih, opsList]
      simp

/-- Every operation-result tensor on the work list is eventually popped and
its operation recorded. -/
theorem mem_opsList_of_mem_worklist (wl : List CuDNNTensor) :
    ∀ y ∈ wl, isArg y = false → y ∈ opsList wl := by
  induction wl using opsList.induct with
  | case1 => simp
  | case2 d wl ih =>
      intro y hy ha
      rw [opsList]
      rcases List.mem_cons.mp hy with rfl | hy'
      · simp [isArg] at ha
      · exact ih y hy' ha
  | case3 d ins wl ih =>
      intro y hy ha
      rw [opsList]
      rcases List.mem_cons.mp hy with rfl | hy'
      · exact List.mem_cons_self _ _
      · exact List.mem_cons_of_mem _ (ih y (by simp [hy']) ha)

/-- In collection (pre-reversal) order, each recorded operation is followed
by an occurrence of the producer of each of its operation-result inputs. -/
theorem opsList_decomposition (wl : List CuDNNTensor) :
    ∀ pre x post, opsList wl = pre ++ x :: post →
      ∀ y ∈ inputsOf x, isArg y = false → y ∈ post := by
  induction wl using opsList.induct with
  | case1 =>
      intro pre x post h
      rw [opsList] at h
      simp at h
  | case2 d wl ih =>
      intro pre x post h
      rw [opsList] at h
      exact ih pre x post h
  | case3 d ins wl ih =>
      intro pre x post h
      rw [opsList] at h
      cases pre with
      | nil =>
          simp only [List.nil_append] at h
          injection h with h1 h2
          subst h1
          subst h2
          intro y hy ha
          exact mem_opsList_of_mem_worklist _ y
            (by simp [inputsOf] at hy; simp [hy]) ha
      | cons p pre' =>
          simp only [List.cons_append] at h
          injection h with h1 h2
          exact ih pre' x post h2

/-- C5: the reversed operation list of every built graph is a topological
order of the operation DAG — wherever an operation occurrence sits, the
producer of each of its non-argument inputs occurs somewhere before it — and
consequently the first entry's inputs are all graph-external arguments. -/
theorem createOperationGraph_ops_topological (rets : List CuDNNTensor) :
    (∀ pre x post, (CreateOperationGraph rets).ops = pre ++ x :: post →
        ∀ y ∈ inputsOf x, isArg y = false → y ∈ pre)
    ∧ (∀ x rest, (CreateOperationGraph rets).ops = x :: rest →
        ∀ y ∈ inputsOf x, isArg y = true) := by
  have hops : (CreateOperationGraph rets).ops = (opsList rets.reverse).reverse := by
    simp [CreateOperationGraph, collectOps_eq]
  have hmain : ∀ pre x post, (CreateOperationGraph rets).ops = pre ++ x :: post →
      ∀ y ∈ inputsOf x, isArg y = false → y ∈ pre := by
    intro pre x post h y hy ha
    rw [hops] at h
    have h2 : opsList rets.reverse = post.reverse ++ x :: pre.reverse := by
      have h3 := congrArg List.reverse h
      simpa [List.reverse_append] using h3
    have h4 := opsList_decomposition rets.reverse post.reverse x pre.reverse h2 y hy ha
    simpa using h4
  refine ⟨hmain, fun x rest h y hy => ?_⟩
  by_contra hfalse
  have ha : isArg y = false := by
    cases hb : isArg y
    · rfl
    · exact absurd hb hfalse
  have h5 : (CreateOperationGraph rets).ops = [] ++ x :: rest := by simpa using h
  exact absurd (hmain [] x rest h5 y hy ha) (List.not_mem_nil y)

/-- When the argument ids are pairwise distinct, the sort by id is strictly
increasing. -/
theorem sortArgsById_pairwise (l : List CuDNNTensor)
    (h : (l.map tid).Nodup) : (sortArgsById l).Pairwise ltById := by
  have hs : (sortArgsById l).Pairwise leById := List.sorted_insertionSort leById l
  have hperm : (sortArgsById l).Perm l := List.perm_insertionSort leById l
  have hn : ((sortArgsById l).map tid).Nodup := (hperm.map tid).nodup_iff.mpr h
  have hne : (sortArgsById l).Pairwise fun a b => tid a ≠ tid b := by
    rw [List.Nodup, List.pairwise_map] at hn
    exact hn
  exact (hs.and hne).imp fun hab => lt_of_le_of_ne hab.1 hab.2

/-- C2: under the unique-id invariant, every built graph's argument id
sequence is strictly ascending; its arguments are exactly the argument
tensors reachable from the returns along input edges (no extras, no
omissions); and its uid sequence is the argument ids followed by the return
ids in caller order, of length `|args| + |rets|`. -/
theorem createOperationGraph_args_exact (rets : List CuDNNTensor)
    (h : ((discoveredArgs rets).map tid).Nodup) :
    ((CreateOperationGraph rets).args.map tid).Pairwise (· < ·)
    ∧ (∀ y, y ∈ (CreateOperationGraph rets).args ↔
        isArg y = true ∧ ∃ t ∈ rets, Reaches t y)
    ∧ (CreateOperationGraph rets).uids =
        (CreateOperationGraph rets).args.map tid ++ rets.map tid
    ∧ (CreateOperationGraph rets).uids.length =
        (CreateOperationGraph rets).args.length + rets.length := by
  have hargs : (CreateOperationGraph rets).args =
      sortArgsById (discoveredArgs rets) := rfl
  refine ⟨?_, ?_, rfl, ?_⟩
  · rw [hargs, List.pairwise_map]
    exact sortArgsById_pairwise _ h
  · intro y
    rw [hargs]
    have hperm := List.perm_insertionSort leById (discoveredArgs rets)
    rw [sortArgsById, hperm.mem_iff]
    unfold discoveredArgs
    rw [mem_collectArgs]
    simp
  · simp [CreateOperationGraph]

/-- C8: argument discovery is deterministic up to the internal set's
iteration order — any iteration order of the discovered-argument set (any
permutation of it), sorted by id, yields the same argument sequence, the
same length, and the same sorted-id sequence, provided ids are unique. -/
theorem buildOperationGraph_argument_determinism (rets : List CuDNNTensor)
    (iter : List CuDNNTensor) (hperm : iter.Perm (discoveredArgs rets))
    (h : ((discoveredArgs rets).map tid).Nodup) :
    sortArgsById iter = sortArgsById (discoveredArgs rets)
    ∧ iter.length = (discoveredArgs rets).length
    ∧ (sortArgsById iter).map tid =
        (sortArgsById (discoveredArgs rets)).map tid := by
  have hiter : (iter.map tid).Nodup := (hperm.map tid).nodup_iff.mpr h
  have p1 := sortArgsById_pairwise iter hiter
  have p2 := sortArgsById_pairwise _ h
  have hp : (sortArgsById iter).Perm (sortArgsById (discoveredArgs rets)) :=
    ((List.perm_insertionSort leById iter).trans hperm).trans
      (List.perm_insertionSort leById (discoveredArgs rets)).symm
  have heq : sortArgsById iter = sortArgsById (discoveredArgs rets) :=
    List.eq_of_perm_of_sorted hp p1 p2
  exact ⟨heq, hperm.length_eq, by rw [heq]⟩

/-- Concrete evaluation of the sample traversal's discovered arguments:
`sampleA2` is found first (it sits atop the modelled stack), `sampleA1`
second. -/
theorem discoveredArgs_sample_eval :
    discoveredArgs sampleRets = [sampleA2, sampleA1] := by
  simp [discoveredArgs, collectArgsAndOps, sampleRets, sampleQ, sampleP,
    sampleA1, sampleA2]

/-- C2 witness: the sample graph's discovered-argument ids `[3, 1]` are
unique; its sorted argument ids are strictly ascending, `sampleA1` is among
the arguments (being reachable from the returns), and the uid count is
`2 + 1`. -/
theorem createOperationGraph_args_exact_witness :
    ((discoveredArgs sampleRets).map tid).Nodup
    ∧ ((CreateOperationGraph sampleRets).args.map tid).Pairwise (· < ·)
    ∧ (sampleA1 ∈ (CreateOperationGraph sampleRets).args ↔
        isArg sampleA1 = true ∧ ∃ t ∈ sampleRets, Reaches t sampleA1)
    ∧ (CreateOperationGraph sampleRets).uids.length =
        (CreateOperationGraph sampleRets).args.length + sampleRets.length := by
  have h : ((discoveredArgs sampleRets).map tid).Nodup := by
    rw [discoveredArgs_sample_eval]
    decide
  exact ⟨h, (createOperationGraph_args_exact sampleRets h).1,
    (createOperationGraph_args_exact sampleRets h).2.1 sampleA1,
    (createOperationGraph_args_exact sampleRets h).2.2.2⟩

/-- C5 witness: the sample graph's reversed operation list is
`[sampleP, sampleQ]`; `sampleP`, the non-argument input of `sampleQ`, indeed
occurs in the prefix before `sampleQ`. -/
theorem createOperationGraph_ops_topological_witness :
    (CreateOperationGraph sampleRets).ops = [sampleP] ++ sampleQ :: []
    ∧ sampleP ∈ inputsOf sampleQ ∧ isArg sampleP = false
    ∧ sampleP ∈ [sampleP] := by
  have hops : (CreateOperationGraph sampleRets).ops = [sampleP] ++ sampleQ :: [] := by
    have h1 := sampleGraph_eval.2.2.2
    simpa [sampleGraph] using h1
  refine ⟨hops, by simp [sampleQ, inputsOf], rfl,
    (createOperationGraph_ops_topological sampleRets).1 [sampleP] sampleQ [] hops
      sampleP (by simp [sampleQ, inputsOf]) rfl⟩

/-- C8 witness: feeding the sample discovered-argument set in the opposite
iteration order produces the same sorted argument sequence and the same
size. -/
theorem buildOperationGraph_argument_determinism_witness :
    ([sampleA1, sampleA2] : List CuDNNTensor).Perm (discoveredArgs sampleRets)
    ∧ sortArgsById [sampleA1, sampleA2] = sortArgsById (discoveredArgs sampleRets)
    ∧ ([sampleA1, sampleA2] : List CuDNNTensor).length =
        (discoveredArgs sampleRets).length := by
  have hperm :
      ([sampleA1, sampleA2] : List CuDNNTensor).Perm (discoveredArgs sampleRets) := by
    rw [discoveredArgs_sample_eval]
    exact List.Perm.swap sampleA2 sampleA1 []
  have h : ((discoveredArgs sampleRets).map tid).Nodup := by
    rw [discoveredArgs_sample_eval]
    decide
  exact ⟨hperm,
    (buildOperationGraph_argument_determinism sampleRets [sampleA1, sampleA2]
      hperm h).1,
    (buildOperationGraph_argument_determinism sampleRets [sampleA1, sampleA2]
      hperm h).2.1⟩
